import Mathlib

/-!
Verification of the werewolf-viewer frontend (`src/viewer/app.js`).

The viewer's core — the scene-text parser `parseScene`, the differential
scene synchronizer `loadScenes`, the polling change detector `poll` /
`update`, and the typing-indicator controller `renderTypingIndicator` —
is embedded shallowly below.  JavaScript strings are modelled as Lean
`String` (sequences of unicode scalars), JS `Set` / plain-object maps as
lists, fallible `fetch` results as `Option`, and one completed poll
cycle as a pure function from the previous viewer state and the
environment's responses to the next state plus the observable effects
(requests issued, indicator shown, timer scheduled).
-/

namespace Viewer

/-! ## Character classes of the JavaScript regexes

`\s` (ECMAScript WhiteSpace ∪ LineTerminator) and the line-terminator
class that the un-flagged `.` refuses to match. -/

/-- ECMAScript `\s`: tab, LF, VT, FF, CR, space, NBSP, and the Unicode
space separators, plus U+2028/U+2029 and U+FEFF. -/
def isJsWhitespace (c : Char) : Bool :=
  c.val = 9 || c.val = 10 || c.val = 11 || c.val = 12 || c.val = 13 ||
  c.val = 32 || c.val = 160 || c.val = 5760 ||
  (8192 ≤ c.val && c.val ≤ 8202) || c.val = 8232 || c.val = 8233 ||
  c.val = 8239 || c.val = 8287 || c.val = 12288 || c.val = 65279

/-- ECMAScript LineTerminator: LF, CR, U+2028, U+2029.  An un-flagged
`.` in a JS regex matches any character except these. -/
def isLineTerm (c : Char) : Bool :=
  c.val = 10 || c.val = 13 || c.val = 8232 || c.val = 8233

/-- `line.trim() === ""`: true iff every character is `\s`-whitespace. -/
def jsBlank (line : String) : Bool :=
  line.data.all isJsWhitespace

/-- `s.startsWith(p)` on JS strings. -/
def jsStartsWith (s p : String) : Bool :=
  p.data.isPrefixOf s.data

/-! ## The speech regex `/^(\S+?)「(.+)$/` (app.js:151)

The lazy group `(\S+?)` makes the engine try delimiter positions left to
right: at each position it succeeds iff the character is `「`, at least
one name character has been consumed, and the rest of the line is a
non-empty run free of line terminators (`(.+)$`); otherwise it extends
the name by one more non-whitespace character. -/

/-- One step of the backtracking search of `/^(\S+?)「(.+)$/`.
`acc` holds the (reversed) name characters consumed so far. -/
def speechGo (acc : List Char) : List Char → Option (List Char × List Char)
  | [] => none
  | c :: rest =>
    if c = '「' ∧ acc ≠ [] ∧ rest ≠ [] ∧ (∀ d ∈ rest, isLineTerm d = false) then
      some (acc.reverse, rest)
    else if isJsWhitespace c then none
    else speechGo (c :: acc) rest

/-- `content.endsWith("」")` followed by `content.slice(0, -1)`
(app.js:155-157): strip exactly one trailing `」` when present. -/
def stripCloser (content : List Char) : List Char :=
  if content.getLast? = some '」' then content.dropLast else content

/-- A parsed block (app.js:158,164,169). -/
inductive Block where
  | speech (name text : String)
  | separator (text : String)
  | narration (text : String)
deriving DecidableEq, Repr

/-- Classification of one non-blank line: the body of the `for` loop of
`parseScene` (app.js:150-169). -/
def parseLineBlock (line : String) : Block :=
  match speechGo [] line.data with
  | some (name, content) => Block.speech (String.mk name) (String.mk (stripCloser content))
  | none =>
    if jsStartsWith line "――" then Block.separator line
    else Block.narration line

/-- The `for` loop of `parseScene` (app.js:146-170): skip lines whose
trim is empty, classify the rest in order. -/
def parseLines : List String → List Block
  | [] => []
  | line :: rest =>
    if jsBlank line then parseLines rest
    else parseLineBlock line :: parseLines rest

/-- Accumulating splitter behind `jsSplit`. -/
def jsSplitGo (cur : List Char) : List Char → List String
  | [] => [String.mk cur.reverse]
  | c :: rest =>
    if c = '\n' then String.mk cur.reverse :: jsSplitGo [] rest
    else jsSplitGo (c :: cur) rest

/-- `text.split("\n")` on JS strings: every `"\n"` occurrence separates
two (possibly empty) fields; `"".split("\n")` is `[""]`. -/
def jsSplit (text : String) : List String :=
  jsSplitGo [] text.data

/-- `parseScene` (app.js:142-173): split on `"\n"`, loop over lines. -/
def parseScene (text : String) : List Block :=
  parseLines (jsSplit text)

/-! ## Declarative reading of the speech regex

`validSplit cs pre rem` says the line `cs` decomposes as a non-empty
all-non-whitespace speaker run `pre`, the opening marker `「`, and a
non-empty remainder `rem` free of line terminators — exactly the
decompositions `/^(\S+?)「(.+)$/` can match, with the lazy quantifier
selecting the shortest `pre`. -/

/-- A decomposition of a line that the speech regex can match. -/
def validSplit (cs pre rem : List Char) : Prop :=
  cs = pre ++ '「' :: rem ∧ pre ≠ [] ∧ (∀ c ∈ pre, isJsWhitespace c = false) ∧
    rem ≠ [] ∧ (∀ c ∈ rem, isLineTerm c = false)

instance (cs pre rem : List Char) : Decidable (validSplit cs pre rem) := by
  unfold validSplit; infer_instance

/-- The `validSplit` generalisation for a search that has already
consumed the non-whitespace characters `acc`. -/
def goSplit (acc cs pre rem : List Char) : Prop :=
  cs = pre ++ '「' :: rem ∧ (∀ c ∈ pre, isJsWhitespace c = false) ∧
    (acc ≠ [] ∨ pre ≠ []) ∧ rem ≠ [] ∧ (∀ c ∈ rem, isLineTerm c = false)

/-! ## Rendering helpers (app.js:57-83, 175-203, 279-284)

`esc` models `document.createTextNode` + `innerHTML` serialisation
(escapes `&`, `<`, `>`, NBSP).  `nameToColor` models the 32-bit hash
(`<<` is JS ToInt32 wrap-around; additions stay exact).
`encodeURIComponent` percent-encodes the UTF-8 bytes of every character
outside the unreserved set. -/

/-- One character of `esc` (app.js:280-284). -/
def escChar (c : Char) : String :=
  if c.val = 38 then "&amp;"
  else if c.val = 60 then "&lt;"
  else if c.val = 62 then "&gt;"
  else if c.val = 160 then "&nbsp;"
  else String.singleton c

/-- `esc(str)`: HTML text escaping via a detached text node. -/
def esc (s : String) : String :=
  String.join (s.data.map escChar)

/-- The UTF-16 code units of a character, as `charCodeAt` sees them. -/
def utf16Units (c : Char) : List Nat :=
  if c.val.toNat < 65536 then [c.val.toNat]
  else
    [55296 + (c.val.toNat - 65536) / 1024, 56320 + (c.val.toNat - 65536) % 1024]

/-- JS ToInt32: wrap an exact integer into `[-2^31, 2^31)`. -/
def toInt32 (x : Int) : Int :=
  (x + 2 ^ 31) % 2 ^ 32 - 2 ^ 31

/-- The hash loop of `nameToColor` (app.js:58-65):
`hash = charCode + ((hash << 5) - hash)` over the code units. -/
def nameHash (name : String) : Int :=
  (name.data.flatMap utf16Units).foldl (fun h u => (u : Int) + (toInt32 (h * 32) - h)) 0

/-- `nameToColor(name)` (app.js:58-65): hue from the normalised hash. -/
def nameToColor (name : String) : String :=
  "hsl(" ++ toString ((nameHash name % 360 + 360) % 360) ++ ", 45%, 65%)"

/-- Unreserved characters of `encodeURIComponent`:
`A-Z a-z 0-9 - _ . ! ~ * ( )` and the apostrophe (U+0027). -/
def isUnreservedURI (c : Char) : Bool :=
  (65 ≤ c.val && c.val ≤ 90) || (97 ≤ c.val && c.val ≤ 122) ||
  (48 ≤ c.val && c.val ≤ 57) || c.val = 45 || c.val = 95 || c.val = 46 ||
  c.val = 33 || c.val = 126 || c.val = 42 || c.val = 39 || c.val = 40 || c.val = 41

/-- UTF-8 bytes of a unicode scalar value. -/
def utf8Bytes (n : Nat) : List Nat :=
  if n < 128 then [n]
  else if n < 2048 then [192 + n / 64, 128 + n % 64]
  else if n < 65536 then [224 + n / 4096, 128 + n / 64 % 64, 128 + n % 64]
  else [240 + n / 262144, 128 + n / 4096 % 64, 128 + n / 64 % 64, 128 + n % 64]

/-- Uppercase hexadecimal digit. -/
def hexDigit (n : Nat) : Char :=
  if n < 10 then Char.ofNat (48 + n) else Char.ofNat (55 + n)

/-- `%XX` escape of one byte. -/
def pctByte (b : Nat) : String :=
  "%" ++ String.singleton (hexDigit (b / 16)) ++ String.singleton (hexDigit (b % 16))

/-- `encodeURIComponent(s)`. -/
def encodeURIComponent (s : String) : String :=
  String.join (s.data.map fun c =>
    if isUnreservedURI c then String.singleton c
    else String.join ((utf8Bytes c.val.toNat).map pctByte))

/-- The replacement `name.replace(/（[^）]*）$/, "")` (app.js:186, 222):
drop the leftmost suffix of the form `（`, a `）`-free run, `）` at end
of string; leave the name unchanged when no such suffix exists. -/
def stripAnnotChars : List Char → List Char
  | [] => []
  | c :: rest =>
    if c = '（' ∧ rest.getLast? = some '）' ∧ '）' ∉ rest.dropLast then []
    else c :: stripAnnotChars rest

/-- `name.replace(/（[^）]*）$/, "")` on strings. -/
def stripAnnot (name : String) : String :=
  String.mk (stripAnnotChars name.data)

/-- `avatarHtml(name)` (app.js:175-178). -/
def avatarHtml (name : String) : String :=
  "<div class=\"speech-avatar\"><img src=\"" ++
    esc ("/chara_image/" ++ encodeURIComponent name ++ ".png") ++
    "\" alt=\"\" loading=\"lazy\"></div>"

/-- A JS string value is truthy iff non-empty; `charDescriptions[k]`
is truthy iff the key maps to a non-empty description. -/
def descTitle (cd : String → Option String) (key : String) : String :=
  match cd key with
  | some d => if d = "" then "" else " title=\"" ++ esc d ++ "\""
  | none => ""

/-- The loop body of `renderSceneBlocks` (app.js:180-203); `cd` is the
module-level `charDescriptions` map. -/
def renderBlock (cd : String → Option String) (b : Block) : String :=
  match b with
  | Block.speech name text =>
    let baseName := stripAnnot name
    let color := nameToColor baseName
    let title := descTitle cd baseName
    "<div class=\"line-speech\">" ++
      "<div class=\"speech-avatar-col\"" ++ title ++ ">" ++
      avatarHtml baseName ++
      "<div class=\"speech-name\" style=\"color:" ++ color ++ "\">" ++
        esc baseName ++ "</div>" ++
      "</div>" ++
      "<div class=\"speech-bubble\">" ++ esc text ++ "</div>" ++
      "</div>"
  | Block.separator text =>
    "<div class=\"line-separator\">" ++ esc text ++ "</div>"
  | Block.narration text =>
    "<div class=\"line-narration\">" ++ esc text ++ "</div>"

/-- `renderSceneBlocks(blocks)` (app.js:180-203). -/
def renderSceneBlocks (cd : String → Option String) (blocks : List Block) : String :=
  blocks.foldl (fun html b => html ++ renderBlock cd b) ""

/-- The markup written into the typing indicator element
(app.js:221-230); it never consults `charDescriptions`. -/
def typingIndicatorHtml (npc : String) : String :=
  let baseName := stripAnnot npc
  let color := nameToColor baseName
  "<div class=\"speech-avatar-col\">" ++
    "<div class=\"speech-avatar\"><img src=\"" ++
      esc ("/chara_image/" ++ encodeURIComponent baseName ++ ".png") ++
      "\" alt=\"\" loading=\"lazy\"></div>" ++
    "<div class=\"speech-name\" style=\"color:" ++ color ++ "\">" ++
      esc baseName ++ "</div>" ++
    "</div>" ++
    "<div class=\"typing-dots\"><span></span><span></span><span></span></div>"

/-! ## Scene synchronizer and poll cycle (app.js:236-335)

Module state (`lastHash`, `loadedScenes`, `sceneDivs`, `isTyping`,
`charDescriptions`) plus the observable DOM bits (the `disconnected`
class of the live indicator, the last-rendered sidebar payload, the
typing-indicator element) form `ViewerState`.  A poll tick's environment
(`Env`) carries every endpoint's response, `none` meaning that fetch
fails (network error or non-ok status).  `sceneDivs` is the ordered
children list of `#scenes`: an association list scene name → rendered
innerHTML; the typing indicator, when present, always sits after it. -/

/-- `/api/scene/{name}` response body. -/
structure SceneData where
  name : String
  content : String
deriving DecidableEq, Repr

/-- `/api/typing` payload; a missing or empty `npc` field is falsy. -/
structure TypingPayload where
  npc : String
  scene : String
deriving DecidableEq, Repr

/-- Opaque `/api/state` payload; the sidebar projector (app.js:86-139)
is a stateless field-to-markup mapping outside the sync core. -/
structure StatePayload where
  raw : String
deriving DecidableEq, Repr

/-- One poll tick's environment: each endpoint's response, `none` for a
failed fetch.  `typing`'s outer `Option` is fetch failure (caught to
`null` in app.js:309), the inner one a `null` payload. -/
structure Env where
  hash : Option String
  stateP : Option StatePayload
  scenes : Option (List String)
  typing : Option (Option TypingPayload)
  sceneContent : String → Option SceneData

/-- The viewer's retained state and observable DOM state. -/
structure ViewerState where
  lastHash : Option String
  loadedScenes : List String
  sceneDivs : List (String × String)
  isTyping : Bool
  disconnected : Bool
  sidebar : Option StatePayload
  indicator : Option String
  charDescriptions : String → Option String

/-- The fetch set of `loadScenes` (app.js:238-245): unloaded names from
the list, then the active scene pushed unless already present.  A JS
string is truthy iff non-empty, so `activeScene &&` rejects both `null`
and `""`. -/
def toFetch (sceneList loadedScenes : List String) (activeScene : Option String) :
    List String :=
  let newScenes := sceneList.filter fun name => !(loadedScenes.contains name)
  let toRefresh : List String :=
    match activeScene with
    | some s => if s ≠ "" ∧ loadedScenes.contains s then [s] else []
    | none => []
  toRefresh.foldl (fun tf n => if tf.contains n then tf else tf ++ [n]) newScenes

/-- The `forEach` body applying one fetched scene (app.js:256-272):
parse, render, replace the existing div's content in place or append a
new div, record the scene as loaded. -/
def applyScene (cd : String → Option String) (st : List String × List (String × String))
    (sc : SceneData) : List String × List (String × String) :=
  let html := renderSceneBlocks cd (parseScene sc.content)
  let divs :=
    if (st.2.map Prod.fst).contains sc.name then
      st.2.map fun p => if p.1 = sc.name then (sc.name, html) else p
    else st.2 ++ [(sc.name, html)]
  let loaded := if st.1.contains sc.name then st.1 else st.1 ++ [sc.name]
  (loaded, divs)

/-- `results.forEach(...)` over all fetched scenes (app.js:255-272). -/
def applyScenes (cd : String → Option String)
    (st : List String × List (String × String)) (results : List SceneData) :
    List String × List (String × String) :=
  results.foldl (applyScene cd) st

/-- Result of one completed `loadScenes` call. -/
structure LoadOut where
  loaded : List String
  divs : List (String × String)
  fetched : List String
  errLogged : Bool
deriving Repr

/-- `loadScenes(sceneList, activeScene)` (app.js:236-277): compute the
fetch set; empty means no network call; `Promise.all` rejects (then
caught and logged) if any single scene fetch fails, applying nothing;
otherwise every result is applied. -/
def loadScenes (fetchScene : String → Option SceneData) (cd : String → Option String)
    (loaded : List String) (divs : List (String × String))
    (sceneList : List String) (activeScene : Option String) : LoadOut :=
  let tf := toFetch sceneList loaded activeScene
  if tf = [] then ⟨loaded, divs, [], false⟩
  else
    match tf.mapM fetchScene with
    | none => ⟨loaded, divs, tf, true⟩
    | some results =>
      let ld := applyScenes cd (loaded, divs) results
      ⟨ld.1, ld.2, tf, false⟩

/-- `renderTypingIndicator(typingData)` (app.js:206-233): falsy payload
or falsy `npc` removes the element; otherwise the element is
(re)created, moved to the tail of `#scenes`, and filled. -/
def renderTypingIndicator (td : Option TypingPayload) (s : ViewerState) : ViewerState :=
  match td with
  | none => { s with indicator := none }
  | some p =>
    if p.npc = "" then { s with indicator := none }
    else { s with indicator := some (typingIndicatorHtml p.npc) }

/-- The indicator element's presence and markup as a function of the
typing payload, as `renderTypingIndicator` leaves it. -/
def indicatorView (td : Option TypingPayload) : Option String :=
  match td with
  | none => none
  | some p => if p.npc = "" then none else some (typingIndicatorHtml p.npc)

/-- Result of one `update()` call: `ok = false` models the returned
promise rejecting (a state or scene-list fetch failure). -/
structure UpdOut where
  ok : Bool
  st : ViewerState
  fetched : List String
  errLogged : Bool

/-- The `.catch(function () { return null; })` on the typing fetch
(app.js:309): a failed fetch degrades to a `null` payload. -/
def caughtTyping (typing : Option (Option TypingPayload)) : Option TypingPayload :=
  match typing with
  | none => none
  | some t => t

/-- `isTyping = !!(typingData && typingData.npc)` and
`activeScene = isTyping ? typingData.scene : null` (app.js:312-313);
an empty `npc` string is falsy. -/
def typingActive (td : Option TypingPayload) : Bool × Option String :=
  match td with
  | some p => if p.npc = "" then (false, none) else (true, some p.scene)
  | none => (false, none)

/-- The typing result carries no (truthy) npc: fetch failed, payload
null, or `npc` empty/absent. -/
def typingIdle : Option (Option TypingPayload) → Prop
  | none => True
  | some none => True
  | some (some p) => p.npc = ""

/-- The names of `ns` not in `ks`, in order of first appearance. -/
def firstAppear (ks : List String) : List String → List String
  | [] => []
  | n :: ns =>
    if ks.contains n then firstAppear ks ns
    else n :: firstAppear (ks ++ [n]) ns

/-- The body of `update()` (app.js:305-321) once `/api/state` and
`/api/scenes` both succeeded. -/
def updateBody (env : Env) (s : ViewerState) (stp : StatePayload)
    (list : List String) : UpdOut :=
  let typingData := caughtTyping env.typing
  let ta := typingActive typingData
  let s1 := { s with isTyping := ta.1, sidebar := some stp }
  let lo := loadScenes env.sceneContent s.charDescriptions s1.loadedScenes
    s1.sceneDivs list ta.2
  { ok := true,
    st := renderTypingIndicator typingData
      { s1 with loadedScenes := lo.loaded, sceneDivs := lo.divs },
    fetched := lo.fetched,
    errLogged := lo.errLogged }

/-- `update()` (app.js:305-321): fetch state, scene list and typing
status concurrently (typing failure is caught to `null`); if the state
or scene-list fetch fails, `Promise.all` rejects and nothing below runs. -/
def updateCycle (env : Env) (s : ViewerState) : UpdOut :=
  match env.stateP, env.scenes with
  | some stp, some list => updateBody env s stp list
  | none, _ => { ok := false, st := s, fetched := [], errLogged := false }
  | some _, none => { ok := false, st := s, fetched := [], errLogged := false }

/-- app.js:7-8. -/
def POLL_INTERVAL_NORMAL : Nat := 3000

/-- app.js:7-8. -/
def POLL_INTERVAL_TYPING : Nat := 1000

/-- The observable outcome of one full poll tick. -/
structure CycleOut where
  st : ViewerState
  coreFetches : Bool
  fetchedScenes : List String
  errLogged : Bool
  scheduled : Bool
  interval : Nat

/-- One tick of `poll()` (app.js:287-303): on hash-fetch failure, flag
`disconnected`; on success clear it and refresh iff the hash differs
from the last-seen one; a rejection of `update()` reaches the same
`.catch` and re-flags `disconnected`; `.finally` always schedules the
next tick, fast while `isTyping`. -/
def pollCycle (env : Env) (s : ViewerState) : CycleOut :=
  match env.hash with
  | none =>
    let s' := { s with disconnected := true }
    { st := s', coreFetches := false, fetchedScenes := [], errLogged := false,
      scheduled := true,
      interval := if s'.isTyping then POLL_INTERVAL_TYPING else POLL_INTERVAL_NORMAL }
  | some h =>
    let s1 := { s with disconnected := false }
    if s1.lastHash = some h then
      { st := s1, coreFetches := false, fetchedScenes := [], errLogged := false,
        scheduled := true,
        interval := if s1.isTyping then POLL_INTERVAL_TYPING else POLL_INTERVAL_NORMAL }
    else
      let s2 := { s1 with lastHash := some h }
      let u := updateCycle env s2
      let st := if u.ok then u.st else { u.st with disconnected := true }
      { st := st, coreFetches := true, fetchedScenes := u.fetched,
        errLogged := u.errLogged, scheduled := true,
        interval := if st.isTyping then POLL_INTERVAL_TYPING else POLL_INTERVAL_NORMAL }

/-! ## Concrete sample fixtures used by the witnesses below -/

/-- An empty character-description map. -/
def sampleCD : String → Option String := fun _ => none

/-- A scene endpoint that answers every name with narration `N`. -/
def sampleFetch : String → Option SceneData := fun n => some ⟨n, "N"⟩

/-- A small viewer state with one loaded scene. -/
def sampleState : ViewerState :=
  { lastHash := some "h", loadedScenes := ["s1"], sceneDivs := [("s1", "x")],
    isTyping := false, disconnected := false, sidebar := none, indicator := none,
    charDescriptions := sampleCD }

/-- An environment whose every fetch succeeds. -/
def sampleEnv : Env :=
  { hash := some "h", stateP := some ⟨"st"⟩, scenes := some ["s1", "s2"],
    typing := some none, sceneContent := sampleFetch }

/-! ## Parser theorems -/

theorem validSplit_iff_goSplit (cs pre rem : List Char) :
    validSplit cs pre rem ↔ goSplit [] cs pre rem := by
  unfold validSplit goSplit
  constructor
  · rintro ⟨h1, h2, h3, h4, h5⟩
    exact ⟨h1, h3, Or.inr h2, h4, h5⟩
  · rintro ⟨h1, h3, h2, h4, h5⟩
    rcases h2 with h2 | h2
    · exact absurd rfl h2
    · exact ⟨h1, h2, h3, h4, h5⟩

theorem kagi_not_whitespace : isJsWhitespace '「' = false := by decide

/-- `speechGo` finds exactly the (unique) shortest continuation split. -/
theorem speechGo_eq_some (cs : List Char) : ∀ (acc name rem : List Char),
    speechGo acc cs = some (name, rem) ↔
      ∃ pre, goSplit acc cs pre rem ∧ name = acc.reverse ++ pre ∧
        ∀ pre' rem', goSplit acc cs pre' rem' → pre.length ≤ pre'.length := by
  induction cs with
  | nil =>
    intro acc name rem
    constructor
    · intro h; exact absurd h (by simp [speechGo])
    · rintro ⟨pre, ⟨h1, _, _, _, _⟩, _, _⟩
      exact absurd h1.symm (List.append_ne_nil_of_right_ne_nil pre (List.cons_ne_nil _ _))
  | cons c rest ih =>
    intro acc name rem
    by_cases h1 : c = '「' ∧ acc ≠ [] ∧ rest ≠ [] ∧ (∀ d ∈ rest, isLineTerm d = false)
    · rw [speechGo, if_pos h1]
      constructor
      · intro h
        injection h with h
        injection h with hname hrem
        subst hrem
        refine ⟨[], ⟨by simp [h1.1], by simp, Or.inl h1.2.1, h1.2.2.1, h1.2.2.2⟩,
          by simp [hname.symm], ?_⟩
        intro pre' rem' _
        exact Nat.zero_le _
      · rintro ⟨pre, hg, hname, hmin⟩
        have hz : goSplit acc (c :: rest) [] rest :=
          ⟨by simp [h1.1], by simp, Or.inl h1.2.1, h1.2.2.1, h1.2.2.2⟩
        have hlen : pre.length ≤ 0 := hmin [] rest hz
        have hpre : pre = [] := List.eq_nil_of_length_eq_zero (Nat.le_zero.mp hlen)
        subst hpre
        obtain ⟨heq, _, _, _, _⟩ := hg
        simp only [List.nil_append] at heq
        injection heq with hd tl
        simp [hname, tl]
    · rw [speechGo, if_neg h1]
      by_cases h2 : isJsWhitespace c = true
      · rw [if_pos h2]
        constructor
        · intro h; exact absurd h (by simp)
        · rintro ⟨pre, ⟨heq, hws, hor, hrem, hlt⟩, _, _⟩
          rcases pre with _ | ⟨p, ps⟩
          · simp only [List.nil_append] at heq
            injection heq with hc hrest
            rcases hor with hacc | hne
            · exact (h1 ⟨hc, hacc, hrest ▸ hrem, hrest ▸ hlt⟩).elim
            · exact (hne rfl).elim
          · injection heq with hc hrest
            have hwp := hws p (by simp)
            rw [← hc, h2] at hwp
            exact Bool.noConfusion hwp
      · rw [if_neg h2]
        rw [ih (c :: acc) name rem]
        have hcw : isJsWhitespace c = false := by
          cases hb : isJsWhitespace c with
          | false => rfl
          | true => exact absurd hb h2
        constructor
        · rintro ⟨pre1, ⟨heq, hws, _, hrem, hlt⟩, hname, hmin⟩
          refine ⟨c :: pre1, ⟨by simp [heq], ?_, Or.inr (List.cons_ne_nil _ _), hrem, hlt⟩,
            by simp [hname], ?_⟩
          · intro x hx
            rcases List.mem_cons.mp hx with rfl | hx
            · exact hcw
            · exact hws x hx
          · rintro pre' rem' ⟨heq', hws', hor', hrem', hlt'⟩
            rcases pre' with _ | ⟨p, ps⟩
            · simp only [List.nil_append] at heq'
              injection heq' with hc hrest
              rcases hor' with hacc | hne
              · exact absurd ⟨hc, hacc, hrest ▸ hrem', hrest ▸ hlt'⟩ h1
              · exact absurd rfl hne
            · injection heq' with hp hrest
              have hle : pre1.length ≤ ps.length := by
                refine hmin ps rem' ⟨hrest, ?_, Or.inl (List.cons_ne_nil _ _), hrem', hlt'⟩
                intro x hx
                exact hws' x (by simp [hx])
              simpa using Nat.succ_le_succ hle
        · rintro ⟨pre, ⟨heq, hws, hor, hrem, hlt⟩, hname, hmin⟩
          rcases pre with _ | ⟨p, ps⟩
          · simp only [List.nil_append] at heq
            injection heq with hc hrest
            rcases hor with hacc | hne
            · exact absurd ⟨hc, hacc, hrest ▸ hrem, hrest ▸ hlt⟩ h1
            · exact absurd rfl hne
          · injection heq with hp hrest
            have hpc : p = c := hp.symm
            subst hpc
            refine ⟨ps, ⟨hrest, ?_, Or.inl (List.cons_ne_nil _ _), hrem, hlt⟩,
              by simp [hname], ?_⟩
            · intro x hx
              exact hws x (by simp [hx])
            · rintro ps' rem' ⟨heq', hws', _, hrem', hlt'⟩
              have hle : (p :: ps).length ≤ (p :: ps').length := by
                refine hmin (p :: ps') rem' ⟨by simp [heq'], ?_,
                  Or.inr (List.cons_ne_nil _ _), hrem', hlt'⟩
                intro x hx
                rcases List.mem_cons.mp hx with rfl | hx
                · exact hcw
                · exact hws' x hx
              simpa using hle

/-- Any valid decomposition can be shortened to a minimal one. -/
theorem exists_minimal_validSplit_aux (n : Nat) :
    ∀ (cs pre rem : List Char), pre.length ≤ n → validSplit cs pre rem →
      ∃ p r, validSplit cs p r ∧
        ∀ p' r', validSplit cs p' r' → p.length ≤ p'.length := by
  induction n with
  | zero =>
    intro cs pre rem hlen hv
    have : pre = [] := List.eq_nil_of_length_eq_zero (Nat.le_zero.mp hlen)
    exact absurd this hv.2.1
  | succ n ih =>
    intro cs pre rem hlen hv
    by_cases hmin : ∀ p' r', validSplit cs p' r' → pre.length ≤ p'.length
    · exact ⟨pre, rem, hv, hmin⟩
    · push_neg at hmin
      obtain ⟨p', r', hv', hlt⟩ := hmin
      exact ih cs p' r' (Nat.le_of_lt_succ (Nat.lt_of_lt_of_le hlt hlen)) hv'

/-- Any valid decomposition can be shortened to a minimal one. -/
theorem exists_minimal_validSplit (cs pre rem : List Char)
    (hv : validSplit cs pre rem) :
    ∃ p r, validSplit cs p r ∧
      ∀ p' r', validSplit cs p' r' → p.length ≤ p'.length :=
  exists_minimal_validSplit_aux pre.length cs pre rem (Nat.le_refl _) hv

/-- `speechGo` from an empty accumulator fails exactly when no valid
decomposition exists. -/
theorem speechGo_none (cs : List Char) :
    speechGo [] cs = none ↔ ∀ pre rem, ¬ validSplit cs pre rem := by
  constructor
  · intro h pre rem hv
    obtain ⟨p, r, hvr, hmin⟩ := exists_minimal_validSplit cs pre rem hv
    have : speechGo [] cs = some (p, r) := by
      rw [speechGo_eq_some]
      refine ⟨p, (validSplit_iff_goSplit cs p r).mp hvr, by simp, ?_⟩
      intro pre' rem' hg'
      exact hmin pre' rem' ((validSplit_iff_goSplit cs pre' rem').mpr hg')
    rw [h] at this
    exact absurd this (by simp)
  · intro h
    cases hs : speechGo [] cs with
    | none => rfl
    | some v =>
      obtain ⟨name, rem⟩ := v
      rw [speechGo_eq_some] at hs
      obtain ⟨pre, hg, hname, -⟩ := hs
      have : name = pre := by simpa using hname
      subst this
      exact absurd ((validSplit_iff_goSplit cs name rem).mpr hg) (h name rem)

/-- The parsing loop emits exactly one block per non-blank line. -/
theorem parseLines_eq_filter_map (lines : List String) :
    parseLines lines = (lines.filter fun l => !jsBlank l).map parseLineBlock := by
  induction lines with
  | nil => rfl
  | cons line rest ih =>
    by_cases hb : jsBlank line
    · simp [parseLines, hb, ih]
    · simp [parseLines, hb, ih]

/-- C2: for every content string, `parseScene` yields exactly one block
per non-blank line (a line is blank iff `line.trim() === ""`, i.e. all
its characters are whitespace — a blank line yields no block), in source
order, and the empty string yields the empty sequence.  As a pure Lean
function of the content string, parsing is deterministic and total; no
error case exists. -/
theorem parseScene_one_block_per_line (text : String) :
    parseScene text = ((jsSplit text).filter fun l => !jsBlank l).map parseLineBlock ∧
      (parseScene text).length = ((jsSplit text).filter fun l => !jsBlank l).length ∧
      parseScene "" = [] := by
  refine ⟨parseLines_eq_filter_map (jsSplit text), ?_, by decide⟩
  rw [parseScene, parseLines_eq_filter_map (jsSplit text), List.length_map]

/-- If a snoc list splits around its final element's value, either the
split's tail is empty or the value already occurs earlier. -/
theorem append_singleton_eq_split (x : Char) :
    ∀ (pre l rem : List Char), l ++ [x] = pre ++ x :: rem → rem = [] ∨ x ∈ l := by
  intro pre
  induction pre with
  | nil =>
    intro l rem h
    simp only [List.nil_append] at h
    cases l with
    | nil =>
      injection h with _ tl
      exact Or.inl tl.symm
    | cons a l' =>
      injection h with hd _
      exact Or.inr (hd ▸ List.mem_cons_self a l')
  | cons p ps ih =>
    intro l rem h
    cases l with
    | nil =>
      simp only [List.nil_append, List.cons_append] at h
      injection h with _ tl
      exact absurd tl.symm (List.append_ne_nil_of_right_ne_nil ps (List.cons_ne_nil _ _))
    | cons a l' =>
      simp only [List.cons_append] at h
      injection h with hd tl
      rcases ih l' rem tl with h1 | h1
      · exact Or.inl h1
      · exact Or.inr (List.mem_cons_of_mem a h1)

/-- A minimal valid decomposition forces the Speech classification. -/
theorem parseLineBlock_speech (line : String) (pre rem : List Char)
    (hv : validSplit line.data pre rem)
    (hmin : ∀ pre' rem', validSplit line.data pre' rem' → pre.length ≤ pre'.length) :
    parseLineBlock line = Block.speech (String.mk pre) (String.mk (stripCloser rem)) := by
  have hsome : speechGo [] line.data = some (pre, rem) := by
    rw [speechGo_eq_some]
    refine ⟨pre, (validSplit_iff_goSplit line.data pre rem).mp hv, by simp, ?_⟩
    intro pre' rem' hg'
    exact hmin pre' rem' ((validSplit_iff_goSplit line.data pre' rem').mpr hg')
  rw [parseLineBlock, hsome]

/-- Without any valid decomposition the line falls through to the
Separator / Narration rules. -/
theorem parseLineBlock_fallthrough (line : String)
    (hnone : ∀ pre rem, ¬ validSplit line.data pre rem) :
    parseLineBlock line =
      if jsStartsWith line "――" then Block.separator line
      else Block.narration line := by
  have h0 : speechGo [] line.data = none := (speechGo_none line.data).mpr hnone
  rw [parseLineBlock, h0]

/-- C3 (amended): a non-blank line is classified by the first matching
rule: if the line decomposes as a non-whitespace run, the marker `「`,
and a non-empty remainder free of line-terminator characters (which the
regex's `.` cannot match), the result is Speech whose speaker is the
shortest such run and whose text is the remainder with exactly one
trailing `」` stripped when present; if no such decomposition exists,
the result is Separator (line kept verbatim) when the line begins with
`――`, else Narration (line kept verbatim). -/
theorem parseLineBlock_classification (line : String) :
    (∀ pre rem, validSplit line.data pre rem →
        (∀ pre' rem', validSplit line.data pre' rem' → pre.length ≤ pre'.length) →
        parseLineBlock line = Block.speech (String.mk pre) (String.mk (stripCloser rem))) ∧
      ((∀ pre rem, ¬ validSplit line.data pre rem) →
        parseLineBlock line =
          if jsStartsWith line "――" then Block.separator line
          else Block.narration line) :=
  ⟨fun pre rem hv hmin => parseLineBlock_speech line pre rem hv hmin,
    fun hnone => parseLineBlock_fallthrough line hnone⟩

/-- C3 counterexample: the line `A「B」\r` (a speech line of CRLF-encoded
content) is a non-whitespace run `A` followed by `「` and the non-empty
remainder `B」\r`, yet it parses as Narration, not Speech, because the
regex's `.` cannot match the carriage return. -/
theorem crlf_speech_line_is_narration :
    "A「B」\r" = "A" ++ "「" ++ "B」\r" ∧
      (∀ c ∈ "A".data, isJsWhitespace c = false) ∧
      parseScene "A「B」\r" = [Block.narration "A「B」\r"] ∧
      parseScene "A「B」\r" ≠ [Block.speech "A" "B」\r"] := by
  refine ⟨rfl, by decide, by decide, by decide⟩

/-- C3 witness: `A「B」` is a valid decomposition with speaker `A`
(necessarily shortest, as any valid run is non-empty) and parses to
Speech `A` / `B` with the closing marker stripped. -/
theorem parseLineBlock_classification_witness :
    validSplit ("A「B」".data) ("A".data) ("B」".data) ∧
      parseLineBlock "A「B」" = Block.speech (String.mk "A".data)
        (String.mk (stripCloser "B」".data)) :=
  ⟨by decide,
    (parseLineBlock_classification "A「B」").1 "A".data "B」".data (by decide)
      fun pre' _ hv' => Nat.succ_le_of_lt (List.length_pos.mpr hv'.2.1)⟩

/-- C10 (amended): a line made of a `「`-free non-whitespace run followed
by `「` with nothing after it cannot match the speech rule (the regex
demands a non-empty remainder), so it falls through to the later rules:
Separator when the line begins with `――`, otherwise Narration carrying
the entire line, marker included. -/
theorem lone_open_marker_line (run : String) (h1 : run.data ≠ [])
    (h2 : ∀ c ∈ run.data, isJsWhitespace c = false) (h3 : '「' ∉ run.data) :
    parseLineBlock (run ++ "「") =
      if jsStartsWith (run ++ "「") "――" then Block.separator (run ++ "「")
      else Block.narration (run ++ "「") := by
  have hdata : (run ++ "「").data = run.data ++ ['「'] := by
    rw [String.data_append]
  refine parseLineBlock_fallthrough (run ++ "「") ?_
  intro pre rem hv
  obtain ⟨heq, -, -, hrem, -⟩ := hv
  rw [hdata] at heq
  rcases append_singleton_eq_split '「' pre run.data rem heq with h | h
  · exact hrem h
  · exact h3 h

/-- C10 counterexample: `――「` is a non-whitespace run (`――`) followed by
`「` with empty remainder, yet parses as Separator, not Narration; and
`a「b「` is a non-whitespace run (`a「b`) followed by `「` with empty
remainder, yet parses as Speech (the lazy regex matches the inner `「`). -/
theorem lone_open_marker_counterexample :
    parseScene "――「" = [Block.separator "――「"] ∧
      parseScene "a「b「" = [Block.speech "a" "b「"] := by
  exact ⟨by decide, by decide⟩

/-- C10 witness: the run `abc` followed by a lone `「` parses as
Narration of the whole line. -/
theorem lone_open_marker_witness :
    "abc".data ≠ [] ∧ (∀ c ∈ "abc".data, isJsWhitespace c = false) ∧
      '「' ∉ "abc".data ∧
      parseLineBlock ("abc" ++ "「") =
        if jsStartsWith ("abc" ++ "「") "――" then Block.separator ("abc" ++ "「")
        else Block.narration ("abc" ++ "「") :=
  ⟨by decide, by decide, by decide,
    lone_open_marker_line "abc" (by decide) (by decide) (by decide)⟩

/-! ## Fetch-set theorems (C1) -/

/-- `toFetch` with no active scene is just the new-scene filter. -/
theorem toFetch_none (sceneList loadedScenes : List String) :
    toFetch sceneList loadedScenes none =
      sceneList.filter fun name => !(loadedScenes.contains name) := rfl

/-- `toFetch` with an active scene: the new-scene filter, with the
active name pushed at the end when refreshable and not already present. -/
theorem toFetch_some (sceneList loadedScenes : List String) (s : String) :
    toFetch sceneList loadedScenes (some s) =
      if s ≠ "" ∧ loadedScenes.contains s then
        (if (sceneList.filter fun name => !(loadedScenes.contains name)).contains s then
          sceneList.filter fun name => !(loadedScenes.contains name)
        else (sceneList.filter fun name => !(loadedScenes.contains name)) ++ [s])
      else sceneList.filter fun name => !(loadedScenes.contains name) := by
  simp only [toFetch]
  by_cases hs : s ≠ "" ∧ loadedScenes.contains s
  · rw [if_pos hs, if_pos hs]
    rfl
  · rw [if_neg hs, if_neg hs]
    rfl

/-- C1 (amended): for every cached set, duplicate-free fetched scene
list and active scene, the fetch list of `loadScenes` contains exactly
the listed names not yet cached, plus the active scene name when it is
non-null, non-empty (a JS empty string is falsy) and already cached,
without duplicates; a cached scene that is not the active one is never
re-fetched; and when the fetch set is empty `loadScenes` issues no scene
fetch and leaves the cache and rendering handles untouched. -/
theorem toFetch_characterization (sceneList loadedScenes : List String)
    (activeScene : Option String) (hnd : sceneList.Nodup) :
    (∀ n, n ∈ toFetch sceneList loadedScenes activeScene ↔
        (n ∈ sceneList ∧ n ∉ loadedScenes) ∨
          (activeScene = some n ∧ n ≠ "" ∧ n ∈ loadedScenes)) ∧
      (toFetch sceneList loadedScenes activeScene).Nodup ∧
      (∀ n, n ∈ loadedScenes → activeScene ≠ some n →
        n ∉ toFetch sceneList loadedScenes activeScene) ∧
      (∀ fetchScene cd divs, toFetch sceneList loadedScenes activeScene = [] →
        loadScenes fetchScene cd loadedScenes divs sceneList activeScene =
          ⟨loadedScenes, divs, [], false⟩) := by
  have hns : ∀ n, n ∈ (sceneList.filter fun name => !(loadedScenes.contains name)) ↔
      n ∈ sceneList ∧ n ∉ loadedScenes := by
    intro n
    simp [List.mem_filter]
  have hmem : ∀ n, n ∈ toFetch sceneList loadedScenes activeScene ↔
      (n ∈ sceneList ∧ n ∉ loadedScenes) ∨
        (activeScene = some n ∧ n ≠ "" ∧ n ∈ loadedScenes) := by
    intro n
    cases activeScene with
    | none => rw [toFetch_none]; simp [hns n]
    | some s =>
      rw [toFetch_some]
      by_cases hs : s ≠ "" ∧ loadedScenes.contains s
      · rw [if_pos hs]
        have hsmem : s ∈ loadedScenes := by
          have := hs.2
          simpa using this
        by_cases hc : (sceneList.filter fun name => !(loadedScenes.contains name)).contains s
        · rw [if_pos hc]
          rw [hns n]
          constructor
          · intro h
            exact Or.inl h
          · rintro (h | ⟨hsn, -, -⟩)
            · exact h
            · injection hsn with hsn
              subst hsn
              exact (hns s).mp (by simpa using hc)
        · rw [if_neg hc]
          constructor
          · intro h
            rcases List.mem_append.mp h with h | h
            · exact Or.inl ((hns n).mp h)
            · have hn : n = s := by simpa using h
              subst hn
              exact Or.inr ⟨rfl, hs.1, hsmem⟩
          · rintro (h | ⟨hsn, -, -⟩)
            · exact List.mem_append.mpr (Or.inl ((hns n).mpr h))
            · injection hsn with hsn
              subst hsn
              exact List.mem_append.mpr (Or.inr (by simp))
      · rw [if_neg hs]
        rw [hns n]
        constructor
        · intro h
          exact Or.inl h
        · rintro (h | ⟨hsn, hne, hmm⟩)
          · exact h
          · injection hsn with hsn
            subst hsn
            exact absurd ⟨hne, by simpa using hmm⟩ hs
  refine ⟨hmem, ?_, ?_, ?_⟩
  · have hnsd : (sceneList.filter fun name => !(loadedScenes.contains name)).Nodup :=
      hnd.filter _
    cases activeScene with
    | none => rw [toFetch_none]; exact hnsd
    | some s =>
      rw [toFetch_some]
      by_cases hs : s ≠ "" ∧ loadedScenes.contains s
      · rw [if_pos hs]
        by_cases hc : (sceneList.filter fun name => !(loadedScenes.contains name)).contains s
        · rw [if_pos hc]
          exact hnsd
        · rw [if_neg hc]
          rw [List.nodup_append]
          refine ⟨hnsd, List.nodup_singleton s, ?_⟩
          intro x hx hx1
          have hxs : x = s := by simpa using hx1
          subst hxs
          exact hc (by simpa using hx)
      · rw [if_neg hs]
        exact hnsd
  · intro n hload hact hin
    rcases (hmem n).mp hin with ⟨-, hni⟩ | ⟨ha, -, -⟩
    · exact hni hload
    · exact hact ha
  · intro fetchScene cd divs hempty
    simp [loadScenes, hempty]

/-- C1 counterexample: a scene list with a duplicate uncached name
produces a duplicated fetch list, and an active scene that is the empty
string, cached, and non-null is not added to the fetch set (JS `""` is
falsy), so the claim as stated fails. -/
theorem toFetch_counterexample :
    toFetch ["s3", "s3"] [] none = ["s3", "s3"] ∧
      toFetch [] [""] (some "") = [] := by
  exact ⟨by decide, by decide⟩

/-- C1 witness: cached `s1 s2`, list `s1 s2 s3`, active `s1`: membership
matches the amended rule at `s3`. -/
theorem toFetch_characterization_witness :
    (["s1", "s2", "s3"] : List String).Nodup ∧
      ("s3" ∈ toFetch ["s1", "s2", "s3"] ["s1", "s2"] (some "s1") ↔
        ("s3" ∈ ["s1", "s2", "s3"] ∧ "s3" ∉ ["s1", "s2"]) ∨
          (some "s1" = some "s3" ∧ "s3" ≠ "" ∧ "s3" ∈ ["s1", "s2"])) :=
  ⟨by decide,
    (toFetch_characterization ["s1", "s2", "s3"] ["s1", "s2"] (some "s1") (by decide)).1 "s3"⟩

/-! ## Speaker canonicalization (C9) -/

/-- C9 (amended): a speaker name whose canonical base name carries no
further annotation renders exactly as the base name would: the
annotation suffix is stripped for the avatar, description and color
lookups and also for the displayed speaker name, so the annotated and
canonical speakers produce identical markup. -/
theorem renderSceneBlocks_canonical (cd : String → Option String) (name text : String)
    (h : stripAnnot (stripAnnot name) = stripAnnot name) :
    renderSceneBlocks cd [Block.speech name text] =
      renderSceneBlocks cd [Block.speech (stripAnnot name) text] := by
  simp only [renderSceneBlocks, List.foldl, renderBlock, h]

set_option maxRecDepth 40000 in
/-- C9 counterexample: the markup rendered for speaker `Alice（Seer）`
is identical to the markup for speaker `Alice` and contains no full-width
parenthesis at all, so the displayed speaker name is the canonical
`Alice`, not the full annotated name the claim asserts. -/
theorem rendered_speech_shows_canonical_name :
    renderSceneBlocks sampleCD [Block.speech "Alice（Seer）" "Hi"] =
        renderSceneBlocks sampleCD [Block.speech "Alice" "Hi"] ∧
      (renderSceneBlocks sampleCD [Block.speech "Alice（Seer）" "Hi"]).data.contains '（'
        = false := by
  exact ⟨by decide, by decide⟩

/-- C9 witness: `Alice（Seer）` canonicalizes to `Alice` and renders as
`Alice` does. -/
theorem renderSceneBlocks_canonical_witness :
    stripAnnot (stripAnnot "Alice（Seer）") = stripAnnot "Alice（Seer）" ∧
      renderSceneBlocks sampleCD [Block.speech "Alice（Seer）" "Hi"] =
        renderSceneBlocks sampleCD [Block.speech (stripAnnot "Alice（Seer）") "Hi"] :=
  ⟨by decide, renderSceneBlocks_canonical sampleCD "Alice（Seer）" "Hi" (by decide)⟩

/-! ## Scene application (C5) -/

/-- In-place replacement keeps the key sequence. -/
theorem map_fst_replace (divs : List (String × String)) (name html : String) :
    ((divs.map fun p => if p.1 = name then (name, html) else p).map Prod.fst) =
      divs.map Prod.fst := by
  induction divs with
  | nil => rfl
  | cons p ds ih =>
    by_cases hp : p.1 = name
    · simp [hp, ih]
    · simp [hp, ih]

/-- `List.lookup` on a cons cell. -/
theorem lookup_cons (k a v : String) (es : List (String × String)) :
    List.lookup k ((a, v) :: es) = if k == a then some v else List.lookup k es := by
  cases h : k == a
  · simp [List.lookup, h]
  · simp [List.lookup, h]

/-- In-place replacement leaves every other key's value unchanged. -/
theorem lookup_replace_ne (divs : List (String × String)) (name html m : String)
    (hm : m ≠ name) :
    List.lookup m (divs.map fun p => if p.1 = name then (name, html) else p) =
      List.lookup m divs := by
  induction divs with
  | nil => rfl
  | cons p ds ih =>
    rcases p with ⟨pk, pv⟩
    simp only [List.map_cons]
    by_cases hp : pk = name
    · rw [show (if (pk, pv).1 = name then (name, html) else (pk, pv)) = (name, html) from
        if_pos hp]
      rw [lookup_cons, lookup_cons]
      rw [show (m == name) = false from beq_false_of_ne hm]
      rw [show (m == pk) = false from beq_false_of_ne fun hc => hm (hc.trans hp)]
      simpa using ih
    · rw [show (if (pk, pv).1 = name then (name, html) else (pk, pv)) = (pk, pv) from
        if_neg hp]
      rw [lookup_cons, lookup_cons]
      cases hmp : m == pk
      · simpa [hmp] using ih
      · simp [hmp]

/-- In-place replacement stores the new value under the scene's key. -/
theorem lookup_replace_self (divs : List (String × String)) (name html : String)
    (h : name ∈ divs.map Prod.fst) :
    List.lookup name (divs.map fun p => if p.1 = name then (name, html) else p) =
      some html := by
  induction divs with
  | nil => simp at h
  | cons p ds ih =>
    rcases p with ⟨pk, pv⟩
    simp only [List.map_cons]
    by_cases hp : pk = name
    · rw [show (if (pk, pv).1 = name then (name, html) else (pk, pv)) = (name, html) from
        if_pos hp]
      rw [lookup_cons]
      simp
    · rw [show (if (pk, pv).1 = name then (name, html) else (pk, pv)) = (pk, pv) from
        if_neg hp]
      rw [lookup_cons]
      have hne : (name == pk) = false := beq_false_of_ne fun hc => hp hc.symm
      have hmem : name ∈ ds.map Prod.fst := by
        rw [List.map_cons] at h
        rcases List.mem_cons.mp h with hx | hx
        · exact absurd hx.symm hp
        · exact hx
      simp [hne, ih hmem]

/-- Unfolding one step of `applyScenes`. -/
theorem applyScenes_cons (cd : String → Option String)
    (st : List String × List (String × String)) (sc : SceneData) (rs : List SceneData) :
    applyScenes cd st (sc :: rs) = applyScenes cd (applyScene cd st sc) rs := rfl

/-- The key sequence after one `applyScene`. -/
theorem applyScene_keys (cd : String → Option String) (loaded : List String)
    (divs : List (String × String)) (sc : SceneData) :
    ((applyScene cd (loaded, divs) sc).2.map Prod.fst) =
      if (divs.map Prod.fst).contains sc.name then divs.map Prod.fst
      else divs.map Prod.fst ++ [sc.name] := by
  by_cases hc : (divs.map Prod.fst).contains sc.name
  · simp only [applyScene, hc, if_true]
    exact map_fst_replace divs sc.name _
  · simp only [applyScene, hc, if_false]
    simp

/-- Scene order after a whole `apply` pass: the previous keys, in their
previous positions, then the genuinely new names in order of first
appearance. -/
theorem applyScenes_keys (cd : String → Option String) :
    ∀ (results : List SceneData) (loaded : List String) (divs : List (String × String)),
      ((applyScenes cd (loaded, divs) results).2.map Prod.fst) =
        divs.map Prod.fst ++ firstAppear (divs.map Prod.fst) (results.map SceneData.name) := by
  intro results
  induction results with
  | nil =>
    intro loaded divs
    simp [applyScenes, firstAppear]
  | cons sc rs ih =>
    intro loaded divs
    rw [applyScenes_cons]
    have hpair : applyScene cd (loaded, divs) sc =
        ((applyScene cd (loaded, divs) sc).1, (applyScene cd (loaded, divs) sc).2) := rfl
    rw [hpair, ih]
    by_cases hc : (divs.map Prod.fst).contains sc.name
    · rw [applyScene_keys cd loaded divs sc, if_pos hc]
      simp only [List.map_cons, firstAppear, hc, if_true]
    · rw [applyScene_keys cd loaded divs sc, if_neg hc]
      simp only [List.map_cons, firstAppear, hc, if_false]
      rw [List.append_assoc]
      rfl

/-- C5: applying a fetched scene whose name already has a rendering
handle replaces that scene's rendered content in place — the key
sequence (hence the position of every sibling) is untouched and every
other key keeps its value; a name with no handle is appended after all
existing handles; and over a whole apply pass the display order is the
order of first appearance, never permuted. -/
theorem applyScene_in_place (cd : String → Option String) (loaded : List String)
    (divs : List (String × String)) (sc : SceneData) :
    ((divs.map Prod.fst).contains sc.name = true →
        (applyScene cd (loaded, divs) sc).2.map Prod.fst = divs.map Prod.fst ∧
          (∀ m, m ≠ sc.name →
            List.lookup m (applyScene cd (loaded, divs) sc).2 = List.lookup m divs) ∧
          List.lookup sc.name (applyScene cd (loaded, divs) sc).2 =
            some (renderSceneBlocks cd (parseScene sc.content))) ∧
      ((divs.map Prod.fst).contains sc.name = false →
        (applyScene cd (loaded, divs) sc).2 =
          divs ++ [(sc.name, renderSceneBlocks cd (parseScene sc.content))]) ∧
      (∀ results, ((applyScenes cd (loaded, divs) results).2.map Prod.fst) =
        divs.map Prod.fst ++ firstAppear (divs.map Prod.fst) (results.map SceneData.name)) := by
  refine ⟨?_, ?_, fun results => applyScenes_keys cd results loaded divs⟩
  · intro hc
    have hdivs : (applyScene cd (loaded, divs) sc).2 =
        divs.map fun p => if p.1 = sc.name then
          (sc.name, renderSceneBlocks cd (parseScene sc.content)) else p := by
      simp only [applyScene, hc, if_true]
    have hmem : sc.name ∈ divs.map Prod.fst := by simpa using hc
    refine ⟨?_, ?_, ?_⟩
    · rw [hdivs]; exact map_fst_replace divs sc.name _
    · intro m hm
      rw [hdivs]; exact lookup_replace_ne divs sc.name _ m hm
    · rw [hdivs]; exact lookup_replace_self divs sc.name _ hmem
  · intro hc
    simp only [applyScene, hc, if_false]
    simp

/-- C5 witness: re-applying scene `s1` over handles `s1 s2` keeps the
key order and `s2`'s content while replacing `s1`'s. -/
theorem applyScene_in_place_witness :
    (([("s1", "a"), ("s2", "b")].map Prod.fst).contains "s1" = true) ∧
      ((applyScene sampleCD (["s1", "s2"], [("s1", "a"), ("s2", "b")])
          ⟨"s1", "x"⟩).2.map Prod.fst = [("s1", "a"), ("s2", "b")].map Prod.fst ∧
        (∀ m, m ≠ "s1" →
          List.lookup m (applyScene sampleCD (["s1", "s2"], [("s1", "a"), ("s2", "b")])
            ⟨"s1", "x"⟩).2 = List.lookup m [("s1", "a"), ("s2", "b")]) ∧
        List.lookup "s1" (applyScene sampleCD (["s1", "s2"], [("s1", "a"), ("s2", "b")])
            ⟨"s1", "x"⟩).2 =
          some (renderSceneBlocks sampleCD (parseScene "x"))) :=
  ⟨by decide,
    (applyScene_in_place sampleCD ["s1", "s2"] [("s1", "a"), ("s2", "b")]
      ⟨"s1", "x"⟩).1 (by decide)⟩

/-! ## Poll-cycle helper lemmas -/

/-- `renderTypingIndicator` only rewrites the indicator slot. -/
theorem renderTypingIndicator_eq (td : Option TypingPayload) (s : ViewerState) :
    renderTypingIndicator td s = { s with indicator := indicatorView td } := by
  cases td with
  | none => rfl
  | some p =>
    by_cases h : p.npc = ""
    · simp [renderTypingIndicator, indicatorView, h]
    · simp [renderTypingIndicator, indicatorView, h]

/-- `updateBody` in solved form. -/
theorem updateBody_eq (env : Env) (s : ViewerState) (stp : StatePayload)
    (list : List String) :
    updateBody env s stp list =
      { ok := true,
        st := { s with
          isTyping := (typingActive (caughtTyping env.typing)).1,
          sidebar := some stp,
          loadedScenes := (loadScenes env.sceneContent s.charDescriptions
            s.loadedScenes s.sceneDivs list
            (typingActive (caughtTyping env.typing)).2).loaded,
          sceneDivs := (loadScenes env.sceneContent s.charDescriptions
            s.loadedScenes s.sceneDivs list
            (typingActive (caughtTyping env.typing)).2).divs,
          indicator := indicatorView (caughtTyping env.typing) },
        fetched := (loadScenes env.sceneContent s.charDescriptions
          s.loadedScenes s.sceneDivs list
          (typingActive (caughtTyping env.typing)).2).fetched,
        errLogged := (loadScenes env.sceneContent s.charDescriptions
          s.loadedScenes s.sceneDivs list
          (typingActive (caughtTyping env.typing)).2).errLogged } := by
  unfold updateBody
  simp only [renderTypingIndicator_eq]

/-- `update()` rejects exactly when the state or scene-list fetch fails. -/
theorem updateCycle_fail (env : Env) (s : ViewerState)
    (h : env.stateP = none ∨ env.scenes = none) :
    updateCycle env s = { ok := false, st := s, fetched := [], errLogged := false } := by
  rcases h with h | h
  · cases hsc : env.scenes <;> (unfold updateCycle; rw [h, hsc]) <;> try rfl
  · cases hst : env.stateP <;> (unfold updateCycle; rw [hst, h]) <;> try rfl

/-- `update()` reduces to its body when both core fetches succeed. -/
theorem updateCycle_some (env : Env) (s : ViewerState) (stp : StatePayload)
    (list : List String) (h1 : env.stateP = some stp) (h2 : env.scenes = some list) :
    updateCycle env s = updateBody env s stp list := by
  unfold updateCycle
  rw [h1, h2]

/-- The hash slot survives a refresh cycle. -/
theorem updateCycle_st_lastHash (env : Env) (s : ViewerState) :
    (updateCycle env s).st.lastHash = s.lastHash := by
  cases hst : env.stateP with
  | none => rw [updateCycle_fail env s (Or.inl hst)]
  | some stp =>
    cases hsc : env.scenes with
    | none => rw [updateCycle_fail env s (Or.inr hsc)]
    | some list => rw [updateCycle_some env s stp list hst hsc, updateBody_eq]

/-- The disconnected flag survives a refresh cycle body. -/
theorem updateCycle_st_disconnected (env : Env) (s : ViewerState) :
    (updateCycle env s).st.disconnected = s.disconnected := by
  cases hst : env.stateP with
  | none => rw [updateCycle_fail env s (Or.inl hst)]
  | some stp =>
    cases hsc : env.scenes with
    | none => rw [updateCycle_fail env s (Or.inr hsc)]
    | some list => rw [updateCycle_some env s stp list hst hsc, updateBody_eq]

/-- `update()` resolves exactly when both core fetches succeed. -/
theorem updateCycle_ok_iff (env : Env) (s : ViewerState) :
    (updateCycle env s).ok = true ↔ env.stateP.isSome ∧ env.scenes.isSome := by
  cases hst : env.stateP with
  | none => rw [updateCycle_fail env s (Or.inl hst)]; simp
  | some stp =>
    cases hsc : env.scenes with
    | none => rw [updateCycle_fail env s (Or.inr hsc)]; simp
    | some list => rw [updateCycle_some env s stp list hst hsc, updateBody_eq]; simp

/-- `loadScenes` always requests exactly the fetch set. -/
theorem loadScenes_fetched (f : String → Option SceneData) (cd : String → Option String)
    (loaded : List String) (divs : List (String × String)) (list : List String)
    (a : Option String) :
    (loadScenes f cd loaded divs list a).fetched = toFetch list loaded a := by
  simp only [loadScenes]
  by_cases htf : toFetch list loaded a = []
  · rw [if_pos htf, htf]
  · rw [if_neg htf]
    cases hm : (toFetch list loaded a).mapM f <;> rfl

/-- A failing scene-content fetch fails the whole `Promise.all`: the
error is logged and swallowed, nothing is applied. -/
theorem loadScenes_fetch_error (f : String → Option SceneData)
    (cd : String → Option String) (loaded : List String)
    (divs : List (String × String)) (list : List String) (a : Option String)
    (htf : toFetch list loaded a ≠ []) (hm : (toFetch list loaded a).mapM f = none) :
    loadScenes f cd loaded divs list a = ⟨loaded, divs, toFetch list loaded a, true⟩ := by
  simp only [loadScenes]
  rw [if_neg htf, hm]

/-- `.finally` always schedules the next tick. -/
theorem pollCycle_scheduled (env : Env) (s : ViewerState) :
    (pollCycle env s).scheduled = true := by
  cases hh : env.hash with
  | none => simp [pollCycle, hh]
  | some h =>
    simp only [pollCycle, hh]
    split <;> rfl

/-! ## Change detection (C4) -/

/-- C4: in a poll cycle whose fingerprint fetch succeeds with the value
already seen, nothing else is fetched and nothing changes except that
the disconnected flag is cleared — same stored hash, no state/scene-
list/scene-content/typing request — and the next poll is scheduled; when
the value differs (including the first fetch, `lastHash = none`), the
new hash is stored, the state + scene-list + typing fetches are all
issued, and the next poll is scheduled. -/
theorem pollCycle_change_detection (env : Env) (s : ViewerState) (h : String)
    (hh : env.hash = some h) :
    (s.lastHash = some h →
      pollCycle env s =
        { st := { s with disconnected := false }, coreFetches := false,
          fetchedScenes := [], errLogged := false, scheduled := true,
          interval := if s.isTyping then POLL_INTERVAL_TYPING
            else POLL_INTERVAL_NORMAL }) ∧
    (s.lastHash ≠ some h →
      (pollCycle env s).st.lastHash = some h ∧
        (pollCycle env s).coreFetches = true ∧
        (pollCycle env s).scheduled = true) := by
  constructor
  · intro hl
    simp only [pollCycle, hh]
    rw [if_pos hl]
  · intro hl
    simp only [pollCycle, hh]
    rw [if_neg hl]
    refine ⟨?_, rfl, rfl⟩
    by_cases hok : (updateCycle env { s with disconnected := false, lastHash := some h }).ok
    · rw [if_pos hok, updateCycle_st_lastHash]
    · rw [if_neg hok]
      show (updateCycle env { s with disconnected := false, lastHash := some h }).st.lastHash
        = some h
      rw [updateCycle_st_lastHash]

/-- C4 witness: with the sample state (hash already seen) a successful
fingerprint fetch is a no-op that only clears the disconnected flag. -/
theorem pollCycle_change_detection_witness :
    sampleEnv.hash = some "h" ∧ sampleState.lastHash = some "h" ∧
      pollCycle sampleEnv sampleState =
        { st := { sampleState with disconnected := false }, coreFetches := false,
          fetchedScenes := [], errLogged := false, scheduled := true,
          interval := if sampleState.isTyping then POLL_INTERVAL_TYPING
            else POLL_INTERVAL_NORMAL } :=
  ⟨rfl, rfl, (pollCycle_change_detection sampleEnv sampleState "h" rfl).1 rfl⟩

/-! ## Typing fail-open (C6) -/

/-- C6: in a refresh cycle whose state and scene-list fetches succeed,
an idle typing result — fetch failure, `null` payload, or a payload
without (truthy) npc — makes the controller behave as Idle: the typing
flag ends up false, the transient indicator element is absent (removed
if it existed), the sidebar is rendered and scene synchronization runs
with no active scene; and the typing result never rejects the refresh
cycle: `update()` resolves for every typing value whatsoever. -/
theorem typing_fail_open (env : Env) (s : ViewerState) (stp : StatePayload)
    (list : List String) (h1 : env.stateP = some stp) (h2 : env.scenes = some list)
    (h3 : typingIdle env.typing) :
    (updateCycle env s).ok = true ∧
      (updateCycle env s).st.isTyping = false ∧
      (updateCycle env s).st.indicator = none ∧
      (updateCycle env s).st.sidebar = some stp ∧
      (updateCycle env s).fetched = toFetch list s.loadedScenes none ∧
      (updateCycle env s).st.sceneDivs =
        (loadScenes env.sceneContent s.charDescriptions s.loadedScenes s.sceneDivs
          list none).divs ∧
      (∀ t2, (updateCycle { env with typing := t2 } s).ok = true) := by
  have hidle : typingActive (caughtTyping env.typing) = (false, none) := by
    cases hty : env.typing with
    | none => rfl
    | some t =>
      cases t with
      | none => rfl
      | some p =>
        rw [hty] at h3
        have hp : p.npc = "" := h3
        simp [caughtTyping, typingActive, hp]
  have hind : indicatorView (caughtTyping env.typing) = none := by
    cases hty : env.typing with
    | none => rfl
    | some t =>
      cases t with
      | none => rfl
      | some p =>
        rw [hty] at h3
        have hp : p.npc = "" := h3
        simp [caughtTyping, indicatorView, hp]
  rw [updateCycle_some env s stp list h1 h2, updateBody_eq]
  refine ⟨rfl, ?_, ?_, rfl, ?_, ?_, ?_⟩
  · show (typingActive (caughtTyping env.typing)).1 = false
    rw [hidle]
  · show indicatorView (caughtTyping env.typing) = none
    exact hind
  · show (loadScenes env.sceneContent s.charDescriptions s.loadedScenes s.sceneDivs
      list (typingActive (caughtTyping env.typing)).2).fetched = _
    rw [hidle, loadScenes_fetched]
  · show (loadScenes env.sceneContent s.charDescriptions s.loadedScenes s.sceneDivs
      list (typingActive (caughtTyping env.typing)).2).divs = _
    rw [hidle]
  · intro t2
    rw [updateCycle_some { env with typing := t2 } s stp list h1 h2, updateBody_eq]

/-- C6 witness: with the sample environment (typing payload `null`) the
cycle resolves, the flag is false, the indicator is gone and the sidebar
and scene sync still run. -/
theorem typing_fail_open_witness :
    sampleEnv.stateP = some ⟨"st"⟩ ∧ sampleEnv.scenes = some ["s1", "s2"] ∧
      typingIdle sampleEnv.typing ∧
      ((updateCycle sampleEnv sampleState).ok = true ∧
        (updateCycle sampleEnv sampleState).st.isTyping = false ∧
        (updateCycle sampleEnv sampleState).st.indicator = none ∧
        (updateCycle sampleEnv sampleState).st.sidebar = some ⟨"st"⟩ ∧
        (updateCycle sampleEnv sampleState).fetched =
          toFetch ["s1", "s2"] sampleState.loadedScenes none ∧
        (updateCycle sampleEnv sampleState).st.sceneDivs =
          (loadScenes sampleEnv.sceneContent sampleState.charDescriptions
            sampleState.loadedScenes sampleState.sceneDivs ["s1", "s2"] none).divs ∧
        (∀ t2, (updateCycle { sampleEnv with typing := t2 } sampleState).ok = true)) :=
  ⟨rfl, rfl, trivial,
    typing_fail_open sampleEnv sampleState ⟨"st"⟩ ["s1", "s2"] rfl rfl trivial⟩

/-! ## Disconnected indicator (C7) -/

/-- C7 (amended): a poll cycle whose fingerprint fetch fails shows the
disconnected indicator, leaves everything else (hash included)
untouched, triggers no refresh, and still schedules the next poll; a
cycle whose fingerprint fetch succeeds ends with the indicator cleared
provided the refresh it may trigger does not itself fail — if the
triggered refresh's state or scene-list fetch fails, the same `.catch`
re-shows the indicator. -/
theorem pollCycle_disconnect (env : Env) (s : ViewerState) :
    (env.hash = none →
      pollCycle env s =
        { st := { s with disconnected := true }, coreFetches := false,
          fetchedScenes := [], errLogged := false, scheduled := true,
          interval := if s.isTyping then POLL_INTERVAL_TYPING
            else POLL_INTERVAL_NORMAL }) ∧
    (∀ h, env.hash = some h →
      ((s.lastHash = some h ∨ env.stateP.isSome ∧ env.scenes.isSome) →
        (pollCycle env s).st.disconnected = false) ∧
      (s.lastHash ≠ some h → (env.stateP = none ∨ env.scenes = none) →
        (pollCycle env s).st.disconnected = true)) := by
  constructor
  · intro hf
    simp only [pollCycle, hf]
  · intro h hh
    constructor
    · intro hd
      simp only [pollCycle, hh]
      by_cases hl : s.lastHash = some h
      · rw [if_pos hl]
      · rw [if_neg hl]
        rcases hd with hd | ⟨hst, hsc⟩
        · exact absurd hd hl
        · have hok : (updateCycle env
              { s with disconnected := false, lastHash := some h }).ok = true :=
            (updateCycle_ok_iff env _).mpr ⟨hst, hsc⟩
          rw [if_pos hok, updateCycle_st_disconnected]
    · intro hl hfail
      simp only [pollCycle, hh]
      rw [if_neg hl]
      have hko := updateCycle_fail env
        { s with disconnected := false, lastHash := some h } hfail
      rw [hko]
      rfl

/-- C7 counterexample: a cycle whose fingerprint fetch succeeds but
whose triggered refresh fails at the state fetch ends with the
disconnected indicator still shown — success of the fingerprint fetch
alone does not clear it for the cycle. -/
theorem pollCycle_disconnect_counterexample :
    ({ sampleEnv with stateP := none } : Env).hash = some "h" ∧
      (pollCycle { sampleEnv with stateP := none }
        { sampleState with lastHash := none, disconnected := true }).st.disconnected
        = true := ⟨rfl, rfl⟩

/-- C7 witness: a failed fingerprint fetch flags the indicator, changes
nothing else and schedules the next tick. -/
theorem pollCycle_disconnect_witness :
    ({ sampleEnv with hash := none } : Env).hash = none ∧
      pollCycle { sampleEnv with hash := none } sampleState =
        { st := { sampleState with disconnected := true }, coreFetches := false,
          fetchedScenes := [], errLogged := false, scheduled := true,
          interval := if sampleState.isTyping then POLL_INTERVAL_TYPING
            else POLL_INTERVAL_NORMAL } :=
  ⟨rfl, (pollCycle_disconnect { sampleEnv with hash := none } sampleState).1 rfl⟩

/-! ## Error taxonomy (C8) -/

/-- C8 (amended): in a refresh cycle, a failing individual scene-content
fetch is logged and swallowed inside `loadScenes` — nothing is applied,
but the sidebar is rendered, the indicator updated, the disconnected
flag stays clear and the next poll is scheduled; a failing state or
scene-list fetch instead rejects `update()`, abandoning the rest of the
cycle (no sidebar render, no scene application) and showing the same
disconnected indicator as a fingerprint failure; in every case polling
continues — the next attempt is the next scheduled tick. -/
theorem pollCycle_error_taxonomy (env : Env) (s : ViewerState) (h : String)
    (stp : StatePayload) (list : List String)
    (hh : env.hash = some h) (hl : s.lastHash ≠ some h) :
    ((env.stateP = some stp → env.scenes = some list →
        toFetch list s.loadedScenes (typingActive (caughtTyping env.typing)).2 ≠ [] →
        (toFetch list s.loadedScenes
          (typingActive (caughtTyping env.typing)).2).mapM env.sceneContent = none →
        (pollCycle env s).errLogged = true ∧
          (pollCycle env s).st.sceneDivs = s.sceneDivs ∧
          (pollCycle env s).st.sidebar = some stp ∧
          (pollCycle env s).st.disconnected = false ∧
          (pollCycle env s).scheduled = true)) ∧
      ((env.stateP = none ∨ env.scenes = none) →
        (pollCycle env s).st.disconnected = true ∧
          (pollCycle env s).st.sceneDivs = s.sceneDivs ∧
          (pollCycle env s).st.sidebar = s.sidebar ∧
          (pollCycle env s).coreFetches = true ∧
          (pollCycle env s).fetchedScenes = [] ∧
          (pollCycle env s).scheduled = true) ∧
      (∀ env2 s2, (pollCycle env2 s2).scheduled = true) := by
  refine ⟨?_, ?_, fun env2 s2 => pollCycle_scheduled env2 s2⟩
  · intro h1 h2 htf hmf
    have herr := loadScenes_fetch_error env.sceneContent s.charDescriptions
      s.loadedScenes s.sceneDivs list (typingActive (caughtTyping env.typing)).2 htf hmf
    simp only [pollCycle, hh]
    rw [if_neg hl]
    have hok : (updateCycle env
        { s with disconnected := false, lastHash := some h }).ok = true :=
      (updateCycle_ok_iff env _).mpr ⟨by rw [h1]; rfl, by rw [h2]; rfl⟩
    rw [if_pos hok]
    rw [updateCycle_some env _ stp list h1 h2, updateBody_eq]
    refine ⟨?_, ?_, rfl, rfl, rfl⟩
    · show (loadScenes env.sceneContent s.charDescriptions s.loadedScenes s.sceneDivs
        list (typingActive (caughtTyping env.typing)).2).errLogged = true
      rw [herr]
    · show (loadScenes env.sceneContent s.charDescriptions s.loadedScenes s.sceneDivs
        list (typingActive (caughtTyping env.typing)).2).divs = s.sceneDivs
      rw [herr]
  · intro hfail
    simp only [pollCycle, hh]
    rw [if_neg hl]
    rw [updateCycle_fail env { s with disconnected := false, lastHash := some h } hfail]
    refine ⟨?_, ?_, ?_, ?_, ?_, ?_⟩ <;> rfl

/-- C8 counterexample: a cycle in which only the state fetch fails (the
fingerprint fetch succeeded) flips the visible disconnected indicator
and renders no sidebar — the failure is not recovered locally, and the
indicator is not reserved to fingerprint failures as the claim states. -/
theorem pollCycle_error_taxonomy_counterexample :
    ({ sampleEnv with hash := some "a", stateP := none } : Env).hash = some "a" ∧
      (pollCycle { sampleEnv with hash := some "a", stateP := none }
        { sampleState with lastHash := none }).st.disconnected = true ∧
      (pollCycle { sampleEnv with hash := some "a", stateP := none }
        { sampleState with lastHash := none }).st.sidebar = none :=
  ⟨rfl, rfl, rfl⟩

/-- C8 witness: a scene-content fetch failure is logged, applies
nothing, keeps the sidebar render and stays connected. -/
theorem pollCycle_error_taxonomy_witness :
    ({ sampleEnv with sceneContent := fun _ => none } : Env).stateP = some ⟨"st"⟩ ∧
      toFetch ["s1", "s2"] ({ sampleState with lastHash := none } : ViewerState).loadedScenes
        (typingActive (caughtTyping
          ({ sampleEnv with sceneContent := fun _ => none } : Env).typing)).2 ≠ [] ∧
      ((pollCycle { sampleEnv with sceneContent := fun _ => none }
          { sampleState with lastHash := none }).errLogged = true ∧
        (pollCycle { sampleEnv with sceneContent := fun _ => none }
          { sampleState with lastHash := none }).st.sceneDivs =
            ({ sampleState with lastHash := none } : ViewerState).sceneDivs ∧
        (pollCycle { sampleEnv with sceneContent := fun _ => none }
          { sampleState with lastHash := none }).st.sidebar = some ⟨"st"⟩ ∧
        (pollCycle { sampleEnv with sceneContent := fun _ => none }
          { sampleState with lastHash := none }).st.disconnected = false ∧
        (pollCycle { sampleEnv with sceneContent := fun _ => none }
          { sampleState with lastHash := none }).scheduled = true) :=
  ⟨rfl, by decide,
    (pollCycle_error_taxonomy { sampleEnv with sceneContent := fun _ => none }
      { sampleState with lastHash := none } "h" ⟨"st"⟩ ["s1", "s2"] rfl
      (by simp)).1 rfl rfl (by decide) rfl⟩

end Viewer
